import Mathlib

/-!
Verification of the hybrid-retrieval core of a multi-modal RAG system
(`src/vector_store.py`, `src/retriever.py`): a content store plus dense and
BM25 keyword search fused with Reciprocal Rank Fusion.

Modelling notes:
* Python dicts keep insertion order; they are embedded as association lists
  (`List (String × β)`) with `storePut` for `d[k] = v` and `lookupId` for
  `d.get(k)`.
* Scores are exact rationals (`Rat`); Python computes the same formulas in
  floating point.
* The sentence-transformer embedding plus Chroma cosine distance is opaque
  external code; dense search is parametrised by a distance function
  `dist : String → String → Rat` on (query, stored document) pairs, and the
  collection query is modelled as ascending sort by that distance.
* `sorted(..., reverse=True)` is a stable descending sort, embedded as
  `List.insertionSort` with a `≥`-style relation (stable in Mathlib's
  foldr formulation, matching CPython's documented stability).
-/

namespace MRag

/-- Chroma per-entry metadata written by `VectorStore.add_documents`:
`{'page': …, 'type': …, 'doc_id': …}`. -/
structure DocMeta where
  page : Nat
  rtype : String
  doc_id : String
deriving DecidableEq, Repr

/-- The record `VectorStore.add_documents` stores in `self.content_store[doc_id]`. -/
structure StoredRecord where
  original_content : Option String
  summary : String
  page : Nat
  rtype : String
  metadata : List (String × String)
deriving DecidableEq, Repr

/-- An input item handed to `add_documents` (`'content'`/`'summary'` may be
absent, hence `Option`). -/
structure ContentItem where
  content : Option String
  summary : Option String
  page : Nat
  ctype : String
  metadata : List (String × String)
deriving DecidableEq, Repr

/-- One entry of the Chroma collection: id, the summary stored as the
searchable document, and the metadata dict. -/
structure CollectionEntry where
  id : String
  document : String
  meta : DocMeta
deriving DecidableEq, Repr

/-- State of `VectorStore`: the Chroma collection and the
`content_store` dict (insertion ordered). -/
structure VectorStore where
  collection : List CollectionEntry
  content_store : List (String × StoredRecord)
deriving DecidableEq, Repr

/-- The `metadata` value attached to a search-result dict: dense results carry
the Chroma metadata, keyword results carry the item's open metadata mapping. -/
inductive ResultMeta where
  | dense (m : DocMeta)
  | item (m : List (String × String))
deriving DecidableEq, Repr

/-- A result dict produced by `VectorStore.search` or
`Retriever.keyword_search`. `none` in `distance`/`score` models the key being
absent from the dict of the other method. -/
structure SearchResult where
  id : String
  document : String
  original_content : Option String
  page : Option Nat
  rtype : Option String
  metadata : ResultMeta
  distance : Option Rat
  score : Option Rat
deriving DecidableEq, Repr

/-- `d.get(k)` on an insertion-ordered dict. -/
def lookupId {β : Type} (i : String) : List (String × β) → Option β
  | [] => none
  | p :: rest => if p.1 = i then some p.2 else lookupId i rest

/-- `d[k] = v` on an insertion-ordered dict: overwrite in place if the key is
present, else append. -/
def storePut {β : Type} (s : List (String × β)) (i : String) (v : β) : List (String × β) :=
  match s with
  | [] => [(i, v)]
  | p :: rest => if p.1 = i then (i, v) :: rest else p :: storePut rest i v

/-- Splitting accumulator: `cur` holds the characters of the token being
read, in reverse. -/
def pyTokenizeAux (cur : List Char) : List Char → List String
  | [] => if cur.isEmpty then [] else [⟨cur.reverse⟩]
  | c :: cs =>
    if c.isWhitespace then
      if cur.isEmpty then pyTokenizeAux [] cs
      else String.mk cur.reverse :: pyTokenizeAux [] cs
    else pyTokenizeAux (c :: cur) cs

/-- Python `s.lower().split()`: lower-case, split on whitespace runs,
dropping empty tokens (structurally, over the character list). -/
def pyTokenize (s : String) : List String :=
  pyTokenizeAux [] (s.data.map Char.toLower)

/-- A fresh, empty `VectorStore` (`__init__` / `reset`). -/
def VectorStore.emptyStore : VectorStore := ⟨[], []⟩

/-- One iteration of the `add_documents` loop: append to the collection batch
and write the original-content record under the freshly generated id. -/
def VectorStore.addOne (vs : VectorStore) (doc_id : String) (item : ContentItem) : VectorStore :=
  let summary := item.summary.getD (item.content.getD "")
  { collection := vs.collection ++ [⟨doc_id, summary, ⟨item.page, item.ctype, doc_id⟩⟩]
    content_store := storePut vs.content_store doc_id
      ⟨item.content, summary, item.page, item.ctype, item.metadata⟩ }

/-- `VectorStore.add_documents`, with the `uuid.uuid4()` ids supplied
explicitly (they are opaque fresh strings in the source). -/
def VectorStore.add_documents (vs : VectorStore) (items : List ContentItem)
    (ids : List String) : VectorStore :=
  (ids.zip items).foldl (fun s p => s.addOne p.1 p.2) vs

/-- `VectorStore.search`: the Chroma query returns the collection entries in
ascending distance order, truncated to `n_results`, then the source formats
each entry into a result dict. -/
def VectorStore.search (dist : String → String → Rat) (vs : VectorStore)
    (query : String) (n_results : Nat) : List SearchResult :=
  let sorted := List.insertionSort
    (fun e1 e2 : CollectionEntry => dist query e1.document ≤ dist query e2.document)
    vs.collection
  (sorted.take n_results).map fun e =>
    { id := e.id
      distance := some (dist query e.document)
      metadata := ResultMeta.dense e.meta
      document := e.document
      original_content := (lookupId e.id vs.content_store).bind StoredRecord.original_content
      page := some e.meta.page
      rtype := some e.meta.rtype
      score := none }

/-- `VectorStore.get_original_content`. -/
def VectorStore.get_original_content (vs : VectorStore) (doc_id : String) :
    Option StoredRecord :=
  lookupId doc_id vs.content_store

/-- `VectorStore.reset`: drop the collection and the content store. -/
def VectorStore.reset (_vs : VectorStore) : VectorStore := ⟨[], []⟩

/-- `VectorStore.get_all_documents`: every stored record with its `doc_id`. -/
def VectorStore.get_all_documents (vs : VectorStore) : List (String × StoredRecord) :=
  vs.content_store

/-- Modelled from the spec: the external `rank_bm25.BM25Okapi` index
(the library is not part of this repository).  Only its corpus is kept. -/
structure BM25 where
  corpus : List (List String)
deriving DecidableEq, Repr

/-- Number of corpus documents containing term `t`. -/
def BM25.docFreq (b : BM25) (t : String) : Nat :=
  (b.corpus.filter (fun d => decide (t ∈ d))).length

/-- Keep the first occurrence of every element (the iteration order of the
library's `nd` term dictionary). -/
def firstDedup (seen : List String) : List String → List String
  | [] => []
  | x :: xs => if x ∈ seen then firstDedup seen xs else x :: firstDedup (x :: seen) xs

/-- The vocabulary of the corpus: every distinct term, in first-occurrence
order. -/
def BM25.vocab (b : BM25) : List String :=
  firstDedup [] b.corpus.flatten

/-- Modelled from the spec: the raw IDF weight of `rank_bm25.BM25Okapi`,
`log(N − n + 0.5) − log(n + 0.5)` = `log x` for `x = (N−n+0.5)/(n+0.5)`.
The transcendental logarithm is replaced by the rational surrogate `x − 1`,
which has the same sign (`log x ⋚ 0 ⟺ x ⋚ 1`) and the same monotonicity in
`x`, so positivity of scores — all the ranking pipeline inspects — is
preserved.  Terms outside the vocabulary get a positive weight here where
the library's `idf.get(q) or 0` yields 0, but such terms have zero frequency
in every document, so their score contribution is 0 either way. -/
def BM25.rawIdf (b : BM25) (t : String) : Rat :=
  ((b.corpus.length : Rat) - (b.docFreq t : Rat) + 1/2) / ((b.docFreq t : Rat) + 1/2) - 1

/-- The mean raw IDF over the vocabulary (`idf_sum / len(self.idf)`). -/
def BM25.averageIdf (b : BM25) : Rat :=
  ((b.vocab.map b.rawIdf).sum) / (b.vocab.length : Rat)

/-- Modelled from the spec: the effective IDF of `rank_bm25.BM25Okapi` —
negative raw IDFs (terms in more than half the documents) are floored to
`epsilon · average_idf` with the default `epsilon = 0.25`. -/
def BM25.idf (b : BM25) (t : String) : Rat :=
  if b.rawIdf t < 0 then (1/4) * b.averageIdf else b.rawIdf t

/-- Average document length of the corpus. -/
def BM25.avgdl (b : BM25) : Rat :=
  ((b.corpus.map List.length).sum : Rat) / (b.corpus.length : Rat)

/-- Modelled from the spec: the BM25 score of one document for a query, with
`rank_bm25`'s default parameters k1 = 1.5, b = 0.75.  Each query-term
occurrence contributes `idf · tf·(k1+1) / (tf + k1·(1−b+b·dl/avgdl))`. -/
def BM25.scoreDoc (b : BM25) (q : List String) (d : List String) : Rat :=
  (q.map fun t =>
    b.idf t * ((d.count t : Rat) * (3/2 + 1)) /
      ((d.count t : Rat) + 3/2 * (1 - 3/4 + 3/4 * (d.length : Rat) / b.avgdl))).sum

/-- Modelled from the spec: `BM25Okapi.get_scores` — one score per corpus
document, in corpus order. -/
def BM25.get_scores (b : BM25) (q : List String) : List Rat :=
  b.corpus.map (b.scoreDoc q)

/-- Modelled from the spec: constructing `BM25Okapi` raises
`ZeroDivisionError` in two places — over an empty corpus the average
document length divides by the corpus size (`num_doc / self.corpus_size`),
and over a corpus whose vocabulary is empty (every document token-free) the
IDF average divides by the vocabulary size (`idf_sum / len(self.idf)`).
The empty-corpus crash is what the explicit short-circuit in
`_build_keyword_index` avoids; the empty-vocabulary crash is not guarded. -/
def BM25Okapi (corpus : List (List String)) : Except String BM25 :=
  if corpus.isEmpty then Except.error "ZeroDivisionError"
  else if corpus.all List.isEmpty then Except.error "ZeroDivisionError"
  else Except.ok ⟨corpus⟩

/-- State of `Retriever`: the backing store plus the keyword-index fields
written by `_build_keyword_index`. -/
structure Retriever where
  vector_store : VectorStore
  bm25 : Option BM25
  doc_ids : List String
  doc_summaries : List String
deriving DecidableEq, Repr

/-- `Retriever._build_keyword_index`, acting on the retriever's current
state: when the store is empty the guard `if all_docs:` makes the whole
method a NO-OP — `self.bm25`, `self.doc_ids` and `self.doc_summaries` keep
whatever values they already had (this is what keeps the empty-corpus
`BM25Okapi` division from being reached, and also what retains a stale
index after the backing store is reset).  Over a nonempty store it
tokenizes every stored summary, records ids and summaries, and constructs
the BM25 index; a `BM25Okapi` crash propagates. -/
def buildKeywordIndexOn (r : Retriever) : Except String Retriever :=
  let all_docs := r.vector_store.get_all_documents
  if all_docs.isEmpty then Except.ok r
  else
    let tokenized_docs := all_docs.map fun d => pyTokenize d.2.summary
    let ids := all_docs.map fun d => d.1
    let summaries := all_docs.map fun d => d.2.summary
    if tokenized_docs.isEmpty then Except.ok ⟨r.vector_store, r.bm25, ids, summaries⟩
    else
      match BM25Okapi tokenized_docs with
      | Except.ok b => Except.ok ⟨r.vector_store, some b, ids, summaries⟩
      | Except.error e => Except.error e

/-- `Retriever(vector_store)`: `__init__` sets `self.bm25 = None` and then
runs `_build_keyword_index`; a `BM25Okapi` crash propagates out of the
constructor. -/
def initRetriever (vs : VectorStore) : Except String Retriever :=
  buildKeywordIndexOn ⟨vs, none, [], []⟩

/-- The successfully constructed retriever (total wrapper around
`initRetriever`; the fallback value stands for the state visible before the
construction raises and is never produced by a non-crashing run). -/
def mkRetriever (vs : VectorStore) : Retriever :=
  match initRetriever vs with
  | Except.ok r => r
  | Except.error _ => ⟨vs, none, [], []⟩

/-- `Retriever.rebuild_index`: re-run `_build_keyword_index` on the current
state — a no-op when the backing store is empty (total wrapper; the
fallback keeps the state unchanged, standing for the raise). -/
def Retriever.rebuild_index (r : Retriever) : Retriever :=
  match buildKeywordIndexOn r with
  | Except.ok r' => r'
  | Except.error _ => r

/-- `Retriever.dense_search`. -/
def Retriever.dense_search (dist : String → String → Rat) (r : Retriever)
    (query : String) (k : Nat) : List SearchResult :=
  r.vector_store.search dist query k

/-- `Retriever.keyword_search`: score all documents with BM25, take the `k`
highest-scoring indices (`np.argsort(scores)[::-1][:k]`), and emit a result
dict for each index whose score is positive. -/
def Retriever.keyword_search (r : Retriever) (query : String) (k : Nat) :
    List SearchResult :=
  match r.bm25 with
  | none => []
  | some b =>
    let query_tokens := pyTokenize query
    let scores := b.get_scores query_tokens
    let top_indices :=
      (List.insertionSort (fun i j : Nat => scores.getD j 0 ≤ scores.getD i 0)
        (List.range scores.length)).take k
    top_indices.filterMap fun idx =>
      if 0 < scores.getD idx 0 then
        let doc_id := r.doc_ids.getD idx ""
        let oc := r.vector_store.get_original_content doc_id
        some
          { id := doc_id
            score := some (scores.getD idx 0)
            document := r.doc_summaries.getD idx ""
            original_content := oc.bind StoredRecord.original_content
            page := oc.map StoredRecord.page
            rtype := oc.map StoredRecord.rtype
            metadata := ResultMeta.item ((oc.map StoredRecord.metadata).getD [])
            distance := none }
      else none

/-- `1 / (k + rank)`, the RRF contribution of rank `rank` (1-based). -/
def rrfVal (k rank : Nat) : Rat := 1 / ((k : Rat) + (rank : Rat))

/-- `doc_scores[i] += v` for a key already present. -/
def bumpScore (i : String) (v : Rat) : List (String × Rat) → List (String × Rat)
  | [] => []
  | p :: rest => if p.1 = i then (p.1, p.2 + v) :: rest else p :: bumpScore i v rest

/-- The two dicts `reciprocal_rank_fusion` builds while scanning the input
lists: summed scores and the first-seen result dict per id. -/
structure FusionState (α : Type) where
  doc_scores : List (String × Rat)
  doc_info : List (String × α)

/-- The inner loop of `reciprocal_rank_fusion` over one result list,
`rank` counting from 1: a new id is inserted with its contribution, a seen
id has the contribution added to its running sum. -/
def fuseList {α : Type} (getId : α → String) (k : Nat) :
    Nat → List α → FusionState α → FusionState α
  | _, [], st => st
  | rank, res :: rest, st =>
    let i := getId res
    let st' : FusionState α :=
      if (lookupId i st.doc_scores).isSome then
        ⟨bumpScore i (rrfVal k rank) st.doc_scores, st.doc_info⟩
      else
        ⟨st.doc_scores ++ [(i, rrfVal k rank)], st.doc_info ++ [(i, res)]⟩
    fuseList getId k (rank + 1) rest st'

/-- `Retriever.reciprocal_rank_fusion`, polymorphic in the result-dict type
(the source only reads `result['id']` and copies the dict): aggregate the
per-rank contributions over all lists, sort ids by summed score descending
(Python's `sorted` is stable, so ties keep first-seen order), and pair each
first-seen dict with its `rrf_score`. -/
def reciprocal_rank_fusion {α : Type} (getId : α → String)
    (results_list : List (List α)) (k : Nat) : List (α × Rat) :=
  let st := results_list.foldl (fun st rs => fuseList getId k 1 rs st) ⟨[], []⟩
  let sorted_docs :=
    List.insertionSort (fun a b : String × Rat => b.2 ≤ a.2) st.doc_scores
  sorted_docs.filterMap fun p => (lookupId p.1 st.doc_info).map fun res => (res, p.2)

/-- `Retriever.retrieve`: dense and keyword search with `2·top_k` candidates
each, RRF fusion with k = 60, truncation to `top_k`.  The fused dicts carry
`rrf_score` as the second component of the pair. -/
def Retriever.retrieve (dist : String → String → Rat) (r : Retriever)
    (query : String) (top_k : Nat) : List (SearchResult × Rat) :=
  let dense_results := r.dense_search dist query (top_k * 2)
  let keyword_results := r.keyword_search query (top_k * 2)
  (reciprocal_rank_fusion SearchResult.id [dense_results, keyword_results] 60).take top_k

/-- The `content_store` record `addOne` builds from an input item. -/
def mkStoredRecord (item : ContentItem) : StoredRecord :=
  ⟨item.content, item.summary.getD (item.content.getD ""), item.page, item.ctype,
    item.metadata⟩

/-- First result with id `i` in a single result list. -/
def firstOccurIn {α : Type} (getId : α → String) (i : String) : List α → Option α
  | [] => none
  | r :: rs => if getId r = i then some r else firstOccurIn getId i rs

/-- First-seen occurrence of id `i` across the input lists, scanning lists in
order and each list in rank order. -/
def firstOccur {α : Type} (getId : α → String) (i : String) : List (List α) → Option α
  | [] => none
  | rs :: rest =>
    match firstOccurIn getId i rs with
    | some r => some r
    | none => firstOccur getId i rest

/-- Total RRF contribution of id `i` from one result list whose first element
carries rank `rank`: each occurrence at rank `r` adds `1/(k+r)`. -/
def listContrib {α : Type} (getId : α → String) (k : Nat) (i : String) :
    Nat → List α → Rat
  | _, [] => 0
  | rank, r :: rs =>
    (if getId r = i then rrfVal k rank else 0) + listContrib getId k i (rank + 1) rs

/-- Total RRF contribution of id `i` over all input lists (1-based ranks). -/
def totalContrib {α : Type} (getId : α → String) (k : Nat) (i : String)
    (lists : List (List α)) : Rat :=
  (lists.map (listContrib getId k i 1)).sum

/-- A content item used in concrete instantiations. -/
def itemHello : ContentItem :=
  ⟨some "original hello", some "Hello world", 1, "text", [("source", "test")]⟩

/-- A one-item store used in concrete instantiations. -/
def storeHello : VectorStore :=
  VectorStore.emptyStore.add_documents [itemHello] ["id-hello"]

/-- Three one-term documents with disjoint vocabularies.  With a corpus of
three documents, a term occurring in exactly one of them has document
frequency 1 < N/2, so its IDF is genuinely positive (in the real library:
`log(2.5/1.5) > 0`, no epsilon flooring) and a matching query passes the
`scores[idx] > 0` filter. -/
def itemAlpha : ContentItem := ⟨some "text about alpha", some "alpha", 1, "text", []⟩

/-- See `itemAlpha`. -/
def itemBeta : ContentItem := ⟨some "text about beta", some "beta", 2, "text", []⟩

/-- See `itemAlpha`. -/
def itemGamma : ContentItem := ⟨some "text about gamma", some "gamma", 3, "text", []⟩

/-- A three-document store used in concrete instantiations. -/
def storeThree : VectorStore :=
  VectorStore.emptyStore.add_documents [itemAlpha, itemBeta, itemGamma]
    ["id-a3", "id-b3", "id-c3"]

/-- A retriever whose keyword index was built over `storeThree` and whose
backing store was then reset in place (the Python object aliasing: the
`Retriever` keeps its BM25 state while `VectorStore.reset` empties the shared
store). -/
def staleRetriever : Retriever :=
  { mkRetriever storeThree with vector_store := storeThree.reset }

/-- A single item whose summary has no tokens: it reaches `BM25Okapi` with
the corpus `[[]]` (the store is nonempty, so nothing is short-circuited)
and the IDF computation divides by the empty vocabulary. -/
def itemBlank : ContentItem := ⟨some "raw image bytes", some "", 4, "image", []⟩

/-- A one-item store whose only summary is token-free. -/
def storeBlank : VectorStore :=
  VectorStore.emptyStore.add_documents [itemBlank] ["id-blank"]

/-- A trivial distance function for concrete instantiations of the opaque
embedding distance. -/
def dist0 : String → String → Rat := fun _ _ => 0

/-- Two items with identical summary text but different payloads, for
concrete instantiations. -/
def itemA : ContentItem := ⟨some "| a | table |", some "same summary", 2, "table", []⟩

/-- See `itemA`. -/
def itemB : ContentItem := ⟨none, some "same summary", 3, "image", []⟩

/-- **C1 (counterexample).** The claimed score table is wrong about D: the
claim assigns D (rank 3 in L2 = [B,C,D]) the contribution 1/62, but
1/(60+3) = 1/63, so the output is not the claimed list. -/
theorem C1_rrf_example_cex :
    reciprocal_rank_fusion (fun s : String => s) [["A", "B", "C"], ["B", "C", "D"]] 60 ≠
      [("B", 1/62 + 1/61), ("C", 1/63 + 1/62), ("A", 1/61), ("D", 1/62)] := by
  norm_num +decide [reciprocal_rank_fusion, fuseList, rrfVal, bumpScore, lookupId,
    List.insertionSort, List.orderedInsert, List.filterMap_cons]

/-- **C1 (amended).** RRF on L1 = [A,B,C], L2 = [B,C,D] with k = 60 assigns
each item the sum of 1/(60+r) over its 1-based ranks r:
A ↦ 1/61, B ↦ 1/62 + 1/61, C ↦ 1/63 + 1/62, D ↦ 1/63 (D sits at rank 3 of
L2, not rank 2), and returns the fused order B, C, A, D; the single-source
items A and D appear with their single-source contributions. -/
theorem C1_rrf_example :
    reciprocal_rank_fusion (fun s : String => s) [["A", "B", "C"], ["B", "C", "D"]] 60 =
      [("B", 1/62 + 1/61), ("C", 1/63 + 1/62), ("A", 1/61), ("D", 1/63)] := by
  norm_num +decide [reciprocal_rank_fusion, fuseList, rrfVal, bumpScore, lookupId,
    List.insertionSort, List.orderedInsert, List.filterMap_cons]

/-- Closed form of `_build_keyword_index` on an arbitrary retriever state:
the empty store is a no-op; otherwise the tokenized summaries go to
`BM25Okapi` and a crash propagates.  (The inner `if tokenized_docs:` guard
never fires separately: one token list is produced per document.) -/
theorem buildKeywordIndexOn_eq (r : Retriever) :
    buildKeywordIndexOn r =
      if r.vector_store.content_store.isEmpty then Except.ok r
      else
        match BM25Okapi (r.vector_store.content_store.map
            fun d => pyTokenize d.2.summary) with
        | Except.ok b => Except.ok ⟨r.vector_store, some b,
            r.vector_store.content_store.map Prod.fst,
            r.vector_store.content_store.map fun d => d.2.summary⟩
        | Except.error e => Except.error e := by
  unfold buildKeywordIndexOn VectorStore.get_all_documents
  dsimp only
  cases hcs : r.vector_store.content_store with
  | nil => rfl
  | cons p rest => simp

/-- Closed form of the constructor's index build. -/
theorem initRetriever_eq (vs : VectorStore) :
    initRetriever vs =
      if vs.content_store.isEmpty then Except.ok ⟨vs, none, [], []⟩
      else
        match BM25Okapi (vs.content_store.map fun d => pyTokenize d.2.summary) with
        | Except.ok b => Except.ok ⟨vs, some b, vs.content_store.map Prod.fst,
            vs.content_store.map fun d => d.2.summary⟩
        | Except.error e => Except.error e := by
  unfold initRetriever
  rw [buildKeywordIndexOn_eq]

/-- The constructor records the store it was handed. -/
theorem mkRetriever_vector_store (vs : VectorStore) :
    (mkRetriever vs).vector_store = vs := by
  unfold mkRetriever
  rw [initRetriever_eq]
  by_cases hc : vs.content_store.isEmpty = true
  · rw [if_pos hc]
  · rw [if_neg hc]
    cases BM25Okapi (vs.content_store.map fun d => pyTokenize d.2.summary) <;> rfl

/-- Constructor characterisation over a nonempty store with a successful
`BM25Okapi` construction. -/
theorem mkRetriever_cons_ok (vs : VectorStore) (p : String × StoredRecord)
    (rest : List (String × StoredRecord)) (b : BM25)
    (hcs : vs.content_store = p :: rest)
    (hbo : BM25Okapi ((p :: rest).map fun d => pyTokenize d.2.summary) =
      Except.ok b) :
    mkRetriever vs = ⟨vs, some b, (p :: rest).map Prod.fst,
      (p :: rest).map fun d => d.2.summary⟩ := by
  unfold mkRetriever
  rw [initRetriever_eq, hcs, if_neg (by simp), hbo]

/-- Constructor characterisation over a nonempty store whose `BM25Okapi`
construction raises: the total wrapper yields the fallback state. -/
theorem mkRetriever_cons_error (vs : VectorStore) (p : String × StoredRecord)
    (rest : List (String × StoredRecord)) (e : String)
    (hcs : vs.content_store = p :: rest)
    (hbo : BM25Okapi ((p :: rest).map fun d => pyTokenize d.2.summary) =
      Except.error e) :
    mkRetriever vs = ⟨vs, none, [], []⟩ := by
  unfold mkRetriever
  rw [initRetriever_eq, hcs, if_neg (by simp), hbo]

/-- Rebuilding from an unchanged store reproduces the retriever state: a
no-op over the empty store, a deterministic recompute otherwise (and the
crashing corpus leaves the fallback state fixed). -/
theorem rebuild_index_mkRetriever (vs : VectorStore) :
    (mkRetriever vs).rebuild_index = mkRetriever vs := by
  cases hcs : vs.content_store with
  | nil =>
    have hmk : mkRetriever vs = ⟨vs, none, [], []⟩ := by
      unfold mkRetriever
      rw [initRetriever_eq, hcs]
      rfl
    rw [hmk]
    unfold Retriever.rebuild_index
    rw [buildKeywordIndexOn_eq]
    dsimp only
    rw [hcs]
    rfl
  | cons p rest =>
    cases hbo : BM25Okapi ((p :: rest).map fun d => pyTokenize d.2.summary) with
    | ok b =>
      rw [mkRetriever_cons_ok vs p rest b hcs hbo]
      unfold Retriever.rebuild_index
      rw [buildKeywordIndexOn_eq]
      dsimp only
      rw [hcs, if_neg (by simp), hbo]
    | error e =>
      rw [mkRetriever_cons_error vs p rest e hcs hbo]
      unfold Retriever.rebuild_index
      rw [buildKeywordIndexOn_eq]
      dsimp only
      rw [hcs, if_neg (by simp), hbo]

/-- Dict write/read: reading key `j` after writing key `i` sees the written
value exactly when `i = j`. -/
theorem lookupId_storePut {β : Type} (s : List (String × β)) (i j : String) (v : β) :
    lookupId j (storePut s i v) = if i = j then some v else lookupId j s := by
  induction s with
  | nil => simp [storePut, lookupId]
  | cons p rest ih =>
    simp only [storePut]
    by_cases hpi : p.1 = i
    · by_cases hij : i = j
      · simp [hpi, hij, lookupId]
      · have hpj : ¬p.1 = j := by rw [hpi]; exact hij
        simp [hpi, hij, hpj, lookupId]
    · by_cases hpj : p.1 = j
      · have hij : ¬i = j := fun h => hpi (by rw [h, hpj])
        have hji : ¬j = i := fun h => hij h.symm
        simp [hpi, hpj, hij, hji, lookupId]
      · simp [hpi, hpj, lookupId, ih]

/-- One `add_documents` iteration writes exactly the claimed record. -/
theorem get_original_content_addOne (vs : VectorStore) (i j : String)
    (item : ContentItem) :
    (vs.addOne i item).get_original_content j =
      if i = j then some (mkStoredRecord item) else vs.get_original_content j := by
  simp [VectorStore.addOne, VectorStore.get_original_content, lookupId_storePut,
    mkStoredRecord]

/-- Ids not among the inserted ones are untouched by the insertion fold. -/
theorem get_original_content_foldl_addOne (ps : List (String × ContentItem))
    (vs : VectorStore) (j : String) (h : ∀ p ∈ ps, p.1 ≠ j) :
    (ps.foldl (fun s p => s.addOne p.1 p.2) vs).get_original_content j =
      vs.get_original_content j := by
  induction ps generalizing vs with
  | nil => rfl
  | cons p rest ih =>
    rw [List.foldl_cons, ih _ fun q hq => h q (List.mem_cons_of_mem p hq),
      get_original_content_addOne, if_neg (h p (List.mem_cons_self p rest))]

/-- **C3.** Content-store round-trip: when the generated ids are pairwise
distinct and fresh for the store (as `uuid4` ids are), every inserted item
is retrievable under its own id and resolves to exactly the record stored
for it — in particular two items with identical summary text but distinct
ids each resolve to their own record, never another item's. -/
theorem C3_round_trip (vs : VectorStore) (items : List ContentItem)
    (ids : List String) (hnodup : ids.Nodup)
    (hfresh : ∀ i ∈ ids, vs.get_original_content i = none) :
    ∀ p ∈ ids.zip items,
      (vs.add_documents items ids).get_original_content p.1 =
        some (mkStoredRecord p.2) := by
  induction ids generalizing items vs with
  | nil => intro p hp; simp [List.zip] at hp
  | cons i rest ih =>
    intro p hp
    cases items with
    | nil => simp [List.zip] at hp
    | cons item items' =>
      have hstep : vs.add_documents (item :: items') (i :: rest) =
          (vs.addOne i item).add_documents items' rest := rfl
      rcases List.mem_cons.mp hp with heq | hmem
      · subst heq
        rw [hstep]
        show ((rest.zip items').foldl (fun s p => s.addOne p.1 p.2)
          (vs.addOne i item)).get_original_content i = some (mkStoredRecord item)
        rw [get_original_content_foldl_addOne _ _ _
          (fun q hq => by
            have hq1 : q.1 ∈ rest := (List.of_mem_zip hq).1
            intro hcon
            exact (List.nodup_cons.mp hnodup).1 (hcon ▸ hq1)),
          get_original_content_addOne, if_pos rfl]
      · rw [hstep]
        refine ih (vs.addOne i item) items' (List.nodup_cons.mp hnodup).2 ?_ p hmem
        intro j hj
        rw [get_original_content_addOne,
          if_neg (fun hcon : i = j =>
            (List.nodup_cons.mp hnodup).1 (by rw [hcon]; exact hj)),
          hfresh j (List.mem_cons_of_mem i hj)]

/-- **C3 (witness).** Two items with the same summary text stored under the
fresh distinct ids "id-a" and "id-b" each resolve to their own record. -/
theorem C3_round_trip_witness :
    (VectorStore.emptyStore.add_documents [itemA, itemB] ["id-a", "id-b"]).get_original_content
        "id-a" = some (mkStoredRecord itemA)
    ∧ (VectorStore.emptyStore.add_documents [itemA, itemB] ["id-a", "id-b"]).get_original_content
        "id-b" = some (mkStoredRecord itemB) :=
  ⟨C3_round_trip VectorStore.emptyStore [itemA, itemB] ["id-a", "id-b"]
      (by decide) (by decide) ("id-a", itemA) (by decide),
    C3_round_trip VectorStore.emptyStore [itemA, itemB] ["id-a", "id-b"]
      (by decide) (by decide) ("id-b", itemB) (by decide)⟩

/-- A key is found exactly when it is among the stored keys. -/
theorem lookupId_isSome_iff {β : Type} (j : String) (s : List (String × β)) :
    (lookupId j s).isSome ↔ j ∈ s.map Prod.fst := by
  induction s with
  | nil => simp [lookupId]
  | cons p rest ih =>
    rw [List.map_cons]
    by_cases h : p.1 = j
    · simp [lookupId, h]
    · rw [lookupId, if_neg h]
      simp only [List.mem_cons]
      constructor
      · intro hs
        exact Or.inr (ih.mp hs)
      · rintro (heq | hm)
        · exact absurd heq.symm h
        · exact ih.mpr hm

/-- A found value is a stored entry. -/
theorem lookupId_eq_some_mem {β : Type} {j : String} {s : List (String × β)} {v : β}
    (h : lookupId j s = some v) : (j, v) ∈ s := by
  induction s with
  | nil => simp [lookupId] at h
  | cons p rest ih =>
    by_cases hp : p.1 = j
    · rw [lookupId, if_pos hp] at h
      exact List.mem_cons.mpr (Or.inl (by cases p; cases h; simp_all))
    · rw [lookupId, if_neg hp] at h
      exact List.mem_cons_of_mem p (ih h)

/-- With duplicate-free keys, every stored entry is found. -/
theorem lookupId_of_mem_nodup {β : Type} {j : String} {s : List (String × β)} {v : β}
    (hnd : (s.map Prod.fst).Nodup) (h : (j, v) ∈ s) : lookupId j s = some v := by
  induction s with
  | nil => simp at h
  | cons p rest ih =>
    rcases List.mem_cons.mp h with heq | hmem
    · rw [← heq, lookupId, if_pos rfl]
    · have hj : j ∈ rest.map Prod.fst := List.mem_map.mpr ⟨(j, v), hmem, rfl⟩
      have hp : p.1 ≠ j := fun hc => (List.nodup_cons.mp (by simpa using hnd)).1 (hc ▸ hj)
      rw [lookupId, if_neg hp]
      exact ih (List.nodup_cons.mp (by simpa using hnd)).2 hmem

/-- `+= v` on key `i` leaves the key list unchanged. -/
theorem bumpScore_map_fst (i : String) (v : Rat) (s : List (String × Rat)) :
    (bumpScore i v s).map Prod.fst = s.map Prod.fst := by
  induction s with
  | nil => rfl
  | cons p rest ih =>
    by_cases h : p.1 = i <;> simp [bumpScore, h, ih]

/-- Reading after `+= v` on key `i`. -/
theorem lookupId_bumpScore (i j : String) (v : Rat) (s : List (String × Rat)) :
    lookupId j (bumpScore i v s) =
      (lookupId j s).map (fun x => if i = j then x + v else x) := by
  induction s with
  | nil => simp [bumpScore, lookupId]
  | cons p rest ih =>
    by_cases hpi : p.1 = i
    · by_cases hij : i = j
      · simp [bumpScore, lookupId, hpi, hij]
      · have hpj : ¬p.1 = j := by rw [hpi]; exact hij
        simp [bumpScore, lookupId, hpi, hij, hpj]
    · by_cases hpj : p.1 = j
      · have hij : ¬i = j := fun h => hpi (by rw [h, hpj])
        have hji : ¬j = i := fun h => hij h.symm
        simp [bumpScore, lookupId, hpi, hpj, hij, hji]
      · simp [bumpScore, lookupId, hpi, hpj, ih]

/-- Reading after appending a single entry. -/
theorem lookupId_append_single {β : Type} (i j : String) (v : β)
    (s : List (String × β)) :
    lookupId j (s ++ [(i, v)]) =
      (lookupId j s).or (if i = j then some v else none) := by
  induction s with
  | nil => by_cases h : i = j <;> simp [lookupId, h, Option.or]
  | cons p rest ih =>
    by_cases hp : p.1 = j <;> simp [lookupId, hp, ih, Option.or]

/-- Scanning lists in order: the first list that contains the id wins. -/
theorem firstOccur_cons {α : Type} (getId : α → String) (i : String)
    (rs : List α) (rest : List (List α)) :
    firstOccur getId i (rs :: rest) =
      (firstOccurIn getId i rs).or (firstOccur getId i rest) := by
  rw [firstOccur]
  cases firstOccurIn getId i rs <;> simp [Option.or]

/-- Unfolding lemma for `firstOccurIn`. -/
theorem firstOccurIn_cons {α : Type} (getId : α → String) (i : String) (r : α)
    (rs : List α) :
    firstOccurIn getId i (r :: rs) =
      if getId r = i then some r else firstOccurIn getId i rs := rfl

/-- Unfolding lemma for `listContrib`. -/
theorem listContrib_cons {α : Type} (getId : α → String) (k : Nat) (i : String)
    (rank : Nat) (r : α) (rs : List α) :
    listContrib getId k i rank (r :: rs) =
      (if getId r = i then rrfVal k rank else 0) +
        listContrib getId k i (rank + 1) rs := rfl

/-- `+= v` does not change which keys are found. -/
theorem isSome_lookupId_bumpScore (i' i : String) (v : Rat)
    (s : List (String × Rat)) :
    (lookupId i (bumpScore i' v s)).isSome = (lookupId i s).isSome := by
  rw [lookupId_bumpScore]
  cases lookupId i s <;> rfl

/-- `+= v` on a present key adds `v` to the defaulted read. -/
theorem getD_lookupId_bumpScore {i' : String} {s : List (String × Rat)} {x v : Rat}
    (hpres : lookupId i' s = some x) (i : String) :
    (lookupId i (bumpScore i' v s)).getD 0 =
      (lookupId i s).getD 0 + (if i' = i then v else 0) := by
  rw [lookupId_bumpScore]
  by_cases hci : i' = i
  · subst hci
    rw [hpres]
    simp
  · simp only [if_neg hci]
    cases lookupId i s <;> simp

/-- Appending a fresh key adds `v` to the defaulted read of that key only. -/
theorem getD_lookupId_append {i' : String} {s : List (String × Rat)} {v : Rat}
    (hpres : lookupId i' s = none) (i : String) :
    (lookupId i (s ++ [(i', v)])).getD 0 =
      (lookupId i s).getD 0 + (if i' = i then v else 0) := by
  rw [lookupId_append_single]
  by_cases hci : i' = i
  · subst hci
    rw [hpres]
    simp
  · simp [if_neg hci, Option.or_none]

/-- A key is found after appending `(i', v)` iff it was found or is `i'`. -/
theorem isSome_lookupId_append {β : Type} (i' i : String) (v : β)
    (s : List (String × β)) :
    (lookupId i (s ++ [(i', v)])).isSome = true ↔
      (lookupId i s).isSome = true ∨ i' = i := by
  rw [lookupId_append_single]
  by_cases hci : i' = i
  · subst hci
    rw [if_pos rfl]
    simp [Option.isSome_or]
  · simp [if_neg hci, Option.or_none, hci]

/-- Invariants of the inner RRF loop over one result list: score and info
dicts share their key list, keys stay duplicate-free, info entries are keyed
by their own id, info lookups are first-seen, and score lookups accumulate
exactly the per-rank contributions of the scanned list. -/
theorem fuseList_inv {α : Type} (getId : α → String) (k : Nat) (rs : List α) :
    ∀ (rank : Nat) (st : FusionState α),
      st.doc_scores.map Prod.fst = st.doc_info.map Prod.fst →
      (st.doc_scores.map Prod.fst).Nodup →
      (∀ q ∈ st.doc_info, getId q.2 = q.1) →
      ((fuseList getId k rank rs st).doc_scores.map Prod.fst =
          (fuseList getId k rank rs st).doc_info.map Prod.fst)
      ∧ ((fuseList getId k rank rs st).doc_scores.map Prod.fst).Nodup
      ∧ (∀ q ∈ (fuseList getId k rank rs st).doc_info, getId q.2 = q.1)
      ∧ (∀ i, lookupId i (fuseList getId k rank rs st).doc_info =
          (lookupId i st.doc_info).or (firstOccurIn getId i rs))
      ∧ (∀ i, (lookupId i (fuseList getId k rank rs st).doc_scores).getD 0 =
          (lookupId i st.doc_scores).getD 0 + listContrib getId k i rank rs)
      ∧ (∀ i, (lookupId i (fuseList getId k rank rs st).doc_scores).isSome ↔
          ((lookupId i st.doc_scores).isSome ∨ ∃ r ∈ rs, getId r = i)) := by
  induction rs with
  | nil =>
    intro rank st h1 h2 h3
    refine ⟨h1, h2, h3, ?_, ?_, ?_⟩ <;>
      simp [fuseList, listContrib, firstOccurIn, Option.or_none]
  | cons res rest ih =>
    intro rank st h1 h2 h3
    rw [show fuseList getId k rank (res :: rest) st =
        fuseList getId k (rank + 1) rest
          (if (lookupId (getId res) st.doc_scores).isSome then
            ⟨bumpScore (getId res) (rrfVal k rank) st.doc_scores, st.doc_info⟩
          else
            ⟨st.doc_scores ++ [(getId res, rrfVal k rank)],
              st.doc_info ++ [(getId res, res)]⟩) from rfl]
    cases hpres : (lookupId (getId res) st.doc_scores) with
    | some x =>
      simp only [hpres, Option.isSome_some, if_true]
      have hinfo : ∃ z, lookupId (getId res) st.doc_info = some z := by
        rw [Option.isSome_iff_exists.symm, lookupId_isSome_iff, ← h1,
          ← lookupId_isSome_iff, hpres]
        rfl
      obtain ⟨z, hz⟩ := hinfo
      obtain ⟨g1, g2, g3, g4, g5, g6⟩ := ih (rank + 1)
        ⟨bumpScore (getId res) (rrfVal k rank) st.doc_scores, st.doc_info⟩
        (by simpa [bumpScore_map_fst] using h1)
        (by simpa [bumpScore_map_fst] using h2) h3
      refine ⟨g1, g2, g3, ?_, ?_, ?_⟩
      · intro i
        rw [g4 i, firstOccurIn_cons]
        dsimp only
        by_cases hci : getId res = i
        · subst hci
          rw [if_pos rfl, hz]
          rfl
        · rw [if_neg hci]
      · intro i
        rw [g5 i, listContrib_cons]
        dsimp only
        rw [getD_lookupId_bumpScore hpres i]
        ring
      · intro i
        rw [g6 i]
        dsimp only
        rw [isSome_lookupId_bumpScore]
        simp only [List.mem_cons]
        constructor
        · rintro (hs | ⟨r, hr, hri⟩)
          · exact Or.inl hs
          · exact Or.inr ⟨r, Or.inr hr, hri⟩
        · rintro (hs | ⟨r, hr | hr, hri⟩)
          · exact Or.inl hs
          · subst hr
            left
            rw [← hri, hpres]
            rfl
          · exact Or.inr ⟨r, hr, hri⟩
    | none =>
      simp only [hpres, Option.isSome_none, Bool.false_eq_true, if_false]
      have hnotmem : getId res ∉ st.doc_scores.map Prod.fst := by
        rw [← lookupId_isSome_iff, hpres]
        simp
      obtain ⟨g1, g2, g3, g4, g5, g6⟩ := ih (rank + 1)
        ⟨st.doc_scores ++ [(getId res, rrfVal k rank)],
          st.doc_info ++ [(getId res, res)]⟩
        (by simp [h1])
        (by
          simp only [List.map_append, List.map_cons, List.map_nil]
          rw [List.nodup_append]
          exact ⟨h2, List.nodup_singleton _, by
            intro a ha hb
            simp only [List.mem_singleton] at hb
            exact hnotmem (hb ▸ ha)⟩)
        (by
          intro q hq
          rcases List.mem_append.mp hq with hq | hq
          · exact h3 q hq
          · simp only [List.mem_singleton] at hq
            rw [hq])
      refine ⟨g1, g2, g3, ?_, ?_, ?_⟩
      · intro i
        rw [g4 i, firstOccurIn_cons]
        dsimp only
        rw [lookupId_append_single, Option.or_assoc]
        congr 1
        by_cases hci : getId res = i
        · rw [if_pos hci, if_pos hci]
          rfl
        · rw [if_neg hci, if_neg hci]
          rfl
      · intro i
        rw [g5 i, listContrib_cons]
        dsimp only
        rw [getD_lookupId_append hpres i]
        ring
      · intro i
        rw [g6 i]
        dsimp only
        rw [isSome_lookupId_append]
        simp only [List.mem_cons]
        constructor
        · rintro ((hs | hs) | ⟨r, hr, hri⟩)
          · exact Or.inl hs
          · exact Or.inr ⟨res, Or.inl rfl, hs⟩
          · exact Or.inr ⟨r, Or.inr hr, hri⟩
        · rintro (hs | ⟨r, hr | hr, hri⟩)
          · exact Or.inl (Or.inl hs)
          · subst hr
            exact Or.inl (Or.inr hri)
          · exact Or.inr ⟨r, hr, hri⟩

/-- Unfolding lemma for `totalContrib`. -/
theorem totalContrib_cons {α : Type} (getId : α → String) (k : Nat) (i : String)
    (rs : List α) (rest : List (List α)) :
    totalContrib getId k i (rs :: rest) =
      listContrib getId k i 1 rs + totalContrib getId k i rest := by
  simp [totalContrib]

/-- Unfolding lemma for `reciprocal_rank_fusion` (the two `let`s expanded). -/
theorem reciprocal_rank_fusion_def {α : Type} (getId : α → String)
    (lists : List (List α)) (k : Nat) :
    reciprocal_rank_fusion getId lists k =
      (List.insertionSort (fun a b : String × Rat => b.2 ≤ a.2)
        (lists.foldl (fun st rs => fuseList getId k 1 rs st)
          (⟨[], []⟩ : FusionState α)).doc_scores).filterMap
        (fun p => (lookupId p.1
          (lists.foldl (fun st rs => fuseList getId k 1 rs st)
            (⟨[], []⟩ : FusionState α)).doc_info).map fun res => (res, p.2)) := rfl

/-- Invariants of the full RRF aggregation fold over all input lists. -/
theorem foldFuse_inv {α : Type} (getId : α → String) (k : Nat)
    (lists : List (List α)) :
    ∀ (st : FusionState α),
      st.doc_scores.map Prod.fst = st.doc_info.map Prod.fst →
      (st.doc_scores.map Prod.fst).Nodup →
      (∀ q ∈ st.doc_info, getId q.2 = q.1) →
      ((lists.foldl (fun st rs => fuseList getId k 1 rs st) st).doc_scores.map Prod.fst =
          (lists.foldl (fun st rs => fuseList getId k 1 rs st) st).doc_info.map Prod.fst)
      ∧ ((lists.foldl (fun st rs => fuseList getId k 1 rs st) st).doc_scores.map
          Prod.fst).Nodup
      ∧ (∀ q ∈ (lists.foldl (fun st rs => fuseList getId k 1 rs st) st).doc_info,
          getId q.2 = q.1)
      ∧ (∀ i, lookupId i
            (lists.foldl (fun st rs => fuseList getId k 1 rs st) st).doc_info =
          (lookupId i st.doc_info).or (firstOccur getId i lists))
      ∧ (∀ i, (lookupId i
            (lists.foldl (fun st rs => fuseList getId k 1 rs st) st).doc_scores).getD 0 =
          (lookupId i st.doc_scores).getD 0 + totalContrib getId k i lists)
      ∧ (∀ i, (lookupId i
            (lists.foldl (fun st rs => fuseList getId k 1 rs st) st).doc_scores).isSome ↔
          ((lookupId i st.doc_scores).isSome ∨
            ∃ rs ∈ lists, ∃ r ∈ rs, getId r = i)) := by
  induction lists with
  | nil =>
    intro st h1 h2 h3
    refine ⟨h1, h2, h3, ?_, ?_, ?_⟩ <;>
      simp [firstOccur, totalContrib, Option.or_none]
  | cons rs rest ih =>
    intro st h1 h2 h3
    rw [List.foldl_cons]
    obtain ⟨f1, f2, f3, f4, f5, f6⟩ := fuseList_inv getId k rs 1 st h1 h2 h3
    obtain ⟨g1, g2, g3, g4, g5, g6⟩ := ih (fuseList getId k 1 rs st) f1 f2 f3
    refine ⟨g1, g2, g3, ?_, ?_, ?_⟩
    · intro i
      rw [g4 i, f4 i, Option.or_assoc, firstOccur_cons]
    · intro i
      rw [g5 i, f5 i, totalContrib_cons]
      ring
    · intro i
      rw [g6 i, f6 i]
      simp only [List.mem_cons]
      constructor
      · rintro ((hs | ⟨r, hr, hri⟩) | ⟨ls, hls, r, hr, hri⟩)
        · exact Or.inl hs
        · exact Or.inr ⟨rs, Or.inl rfl, r, hr, hri⟩
        · exact Or.inr ⟨ls, Or.inr hls, r, hr, hri⟩
      · rintro (hs | ⟨ls, hls | hls, r, hr, hri⟩)
        · exact Or.inl (Or.inl hs)
        · subst hls
          exact Or.inl (Or.inr ⟨r, hr, hri⟩)
        · exact Or.inr ⟨ls, hls, r, hr, hri⟩

/-- Formatting the sorted score entries: when every key resolves in the info
dict and the info dict is keyed by ids, the emitted ids are exactly the
sorted keys. -/
theorem filterMap_lookup_keys {α : Type} (getId : α → String)
    (info : List (String × α)) (hgood : ∀ q ∈ info, getId q.2 = q.1) :
    ∀ (l : List (String × Rat)), (∀ a ∈ l, (lookupId a.1 info).isSome) →
      ((l.filterMap fun p => (lookupId p.1 info).map fun res => (res, p.2)).map
        fun p => getId p.1) = l.map Prod.fst := by
  intro l
  induction l with
  | nil => intro _; rfl
  | cons a rest ih =>
    intro hsome
    obtain ⟨res, hres⟩ := Option.isSome_iff_exists.mp
      (hsome a (List.mem_cons_self a rest))
    have hstep : List.filterMap
        (fun p : String × Rat => (lookupId p.1 info).map fun res => (res, p.2))
        (a :: rest) = (res, a.2) :: List.filterMap
          (fun p : String × Rat => (lookupId p.1 info).map fun res => (res, p.2))
          rest := by
      simp only [List.filterMap_cons, hres, Option.map_some']
    rw [hstep, List.map_cons, List.map_cons,
      ih (fun b hb => hsome b (List.mem_cons_of_mem a hb))]
    have : getId res = a.1 := hgood (a.1, res) (lookupId_eq_some_mem hres)
    rw [this]

/-- **C2.** `retrieve` requests `2·top_k` candidates from each of the dense
and keyword indexes, fuses them with RRF (k = 60), and returns at most
`top_k` results, for every distance function, retriever state, query and
`top_k`. -/
theorem C2_retrieve_truncates (dist : String → String → Rat) (r : Retriever)
    (q : String) (top_k : Nat) :
    r.retrieve dist q top_k =
      (reciprocal_rank_fusion SearchResult.id
        [r.dense_search dist q (top_k * 2), r.keyword_search q (top_k * 2)] 60).take top_k
    ∧ (r.retrieve dist q top_k).length ≤ top_k := by
  refine ⟨rfl, ?_⟩
  simp only [Retriever.retrieve, List.length_take]
  omega

/-- **C6.** Rebuilding the keyword index from an unchanged content store and
rerunning the same query yields the identical ordered result list (ids,
scores and all fields): the index build is a deterministic function of the
store. -/
theorem C6_rebuild_idempotent (vs : VectorStore) (q : String) (k : Nat) :
    ((mkRetriever vs).rebuild_index).keyword_search q k =
      (mkRetriever vs).keyword_search q k := by
  rw [rebuild_index_mkRetriever]

/-- Unfolding `keyword_search` when the BM25 index is present. -/
theorem keyword_search_eq (r : Retriever) (b : BM25) (hb : r.bm25 = some b)
    (q : String) (n : Nat) :
    r.keyword_search q n =
      ((List.insertionSort (fun i j : Nat =>
          (b.get_scores (pyTokenize q)).getD j 0 ≤
            (b.get_scores (pyTokenize q)).getD i 0)
        (List.range (b.get_scores (pyTokenize q)).length)).take n).filterMap
        (fun idx =>
          if 0 < (b.get_scores (pyTokenize q)).getD idx 0 then
            some
              { id := r.doc_ids.getD idx ""
                score := some ((b.get_scores (pyTokenize q)).getD idx 0)
                document := r.doc_summaries.getD idx ""
                original_content :=
                  (r.vector_store.get_original_content (r.doc_ids.getD idx "")).bind
                    StoredRecord.original_content
                page := (r.vector_store.get_original_content
                  (r.doc_ids.getD idx "")).map StoredRecord.page
                rtype := (r.vector_store.get_original_content
                  (r.doc_ids.getD idx "")).map StoredRecord.rtype
                metadata := ResultMeta.item
                  (((r.vector_store.get_original_content
                    (r.doc_ids.getD idx "")).map StoredRecord.metadata).getD [])
                distance := none }
          else none) := by
  unfold Retriever.keyword_search
  rw [hb]

/-- What `_build_keyword_index` records for a nonempty store: the BM25
corpus is the tokenized stored summaries, and ids/summaries line up with
the content store. -/
theorem mkRetriever_fields (vs : VectorStore) (b : BM25)
    (hb : (mkRetriever vs).bm25 = some b) :
    b.corpus = vs.content_store.map (fun p => pyTokenize p.2.summary)
    ∧ (mkRetriever vs).doc_ids = vs.content_store.map Prod.fst
    ∧ (mkRetriever vs).doc_summaries = vs.content_store.map (fun p => p.2.summary) := by
  cases hcs : vs.content_store with
  | nil =>
    rw [show mkRetriever vs = ⟨vs, none, [], []⟩ by
      unfold mkRetriever
      rw [initRetriever_eq, hcs]
      rfl] at hb
    exact absurd hb (by simp)
  | cons p rest =>
    cases hbo : BM25Okapi ((p :: rest).map fun d => pyTokenize d.2.summary) with
    | ok b' =>
      have hbc : b'.corpus = (p :: rest).map fun d => pyTokenize d.2.summary := by
        unfold BM25Okapi at hbo
        rw [if_neg (by simp :
          ¬((p :: rest).map fun d => pyTokenize d.2.summary).isEmpty = true)] at hbo
        by_cases hall :
            ((p :: rest).map fun d => pyTokenize d.2.summary).all List.isEmpty = true
        · rw [if_pos hall] at hbo
          exact absurd hbo (by simp)
        · rw [if_neg hall] at hbo
          injection hbo with h
          rw [← h]
      rw [mkRetriever_cons_ok vs p rest b' hcs hbo] at hb ⊢
      simp only [Option.some.injEq] at hb
      subst hb
      exact ⟨hbc, rfl, rfl⟩
    | error e =>
      rw [mkRetriever_cons_error vs p rest e hcs hbo] at hb
      exact absurd hb (by simp)

/-- **C5.** For every store, query and `n`, `keyword_search` returns at most
`n` results, ordered descending by their BM25 score, with every
non-positive (in particular zero) score excluded; the index scores are the
BM25 scores of the query tokens over the tokenized stored summaries
(lower-cased, whitespace-split), and each result carries its document's
score and summary. -/
theorem C5_keyword_search (vs : VectorStore) (q : String) (n : Nat) (b : BM25)
    (hb : (mkRetriever vs).bm25 = some b) :
    ((mkRetriever vs).keyword_search q n).length ≤ n
    ∧ List.Pairwise (fun x y : SearchResult => y.score.getD 0 ≤ x.score.getD 0)
        ((mkRetriever vs).keyword_search q n)
    ∧ (∀ res ∈ (mkRetriever vs).keyword_search q n,
        ∃ s, res.score = some s ∧ 0 < s)
    ∧ b.corpus = vs.content_store.map (fun p => pyTokenize p.2.summary)
    ∧ (∀ res ∈ (mkRetriever vs).keyword_search q n,
        ∃ idx, idx < b.corpus.length ∧
          res.score = some ((b.get_scores (pyTokenize q)).getD idx 0) ∧
          res.document = (mkRetriever vs).doc_summaries.getD idx "") := by
  rw [keyword_search_eq (mkRetriever vs) b hb]
  haveI htot : IsTotal Nat (fun i j : Nat =>
      (b.get_scores (pyTokenize q)).getD j 0 ≤ (b.get_scores (pyTokenize q)).getD i 0) :=
    ⟨fun i j => le_total _ _⟩
  haveI htrans : IsTrans Nat (fun i j : Nat =>
      (b.get_scores (pyTokenize q)).getD j 0 ≤ (b.get_scores (pyTokenize q)).getD i 0) :=
    ⟨fun _ _ _ h1 h2 => le_trans h2 h1⟩
  refine ⟨?_, ?_, ?_, (mkRetriever_fields vs b hb).1, ?_⟩
  · exact le_trans (List.length_filterMap_le _ _) (by rw [List.length_take]; omega)
  · have hsorted := List.sorted_insertionSort (fun i j : Nat =>
      (b.get_scores (pyTokenize q)).getD j 0 ≤ (b.get_scores (pyTokenize q)).getD i 0)
      (List.range (b.get_scores (pyTokenize q)).length)
    have htake := hsorted.sublist (List.take_sublist n _)
    refine List.Pairwise.filterMap _ ?_ htake
    intro i j hij x hx y hy
    simp only [Option.mem_def] at hx hy
    by_cases hi : 0 < (b.get_scores (pyTokenize q)).getD i 0
    · by_cases hj : 0 < (b.get_scores (pyTokenize q)).getD j 0
      · rw [if_pos hi] at hx
        rw [if_pos hj] at hy
        cases hx
        cases hy
        simpa using hij
      · rw [if_neg hj] at hy
        cases hy
    · rw [if_neg hi] at hx
      cases hx
  · intro res hres
    obtain ⟨idx, _, hfa⟩ := List.mem_filterMap.mp hres
    by_cases hi : 0 < (b.get_scores (pyTokenize q)).getD idx 0
    · rw [if_pos hi] at hfa
      cases hfa
      exact ⟨_, rfl, hi⟩
    · rw [if_neg hi] at hfa
      cases hfa
  · intro res hres
    obtain ⟨idx, hidx, hfa⟩ := List.mem_filterMap.mp hres
    by_cases hi : 0 < (b.get_scores (pyTokenize q)).getD idx 0
    · rw [if_pos hi] at hfa
      cases hfa
      refine ⟨idx, ?_, rfl, rfl⟩
      have hmem : idx ∈ List.range (b.get_scores (pyTokenize q)).length :=
        (List.perm_insertionSort _ _).mem_iff.mp (List.mem_of_mem_take hidx)
      have hlen : (b.get_scores (pyTokenize q)).length = b.corpus.length := by
        rw [BM25.get_scores, List.length_map]
      rw [← hlen]
      exact List.mem_range.mp hmem
    · rw [if_neg hi] at hfa
      cases hfa

/-- **C5 (witness).** Concrete instance over the one-document store. -/
theorem C5_keyword_search_witness :
    ((mkRetriever storeHello).keyword_search "hello" 3).length ≤ 3
    ∧ List.Pairwise (fun x y : SearchResult => y.score.getD 0 ≤ x.score.getD 0)
        ((mkRetriever storeHello).keyword_search "hello" 3)
    ∧ (∀ res ∈ (mkRetriever storeHello).keyword_search "hello" 3,
        ∃ s, res.score = some s ∧ 0 < s)
    ∧ (⟨[["hello", "world"]]⟩ : BM25).corpus =
        storeHello.content_store.map (fun p => pyTokenize p.2.summary)
    ∧ (∀ res ∈ (mkRetriever storeHello).keyword_search "hello" 3,
        ∃ idx, idx < (⟨[["hello", "world"]]⟩ : BM25).corpus.length ∧
          res.score = some (((⟨[["hello", "world"]]⟩ : BM25).get_scores
            (pyTokenize "hello")).getD idx 0) ∧
          res.document = (mkRetriever storeHello).doc_summaries.getD idx "") :=
  C5_keyword_search storeHello "hello" 3 ⟨[["hello", "world"]]⟩ (by decide)

/-- **C8.** Every fused result is the verbatim first-seen occurrence of its
id across the input lists (scanned in list order, then rank order), paired
with the appended `rrf_score`: no field of the source record is replaced or
altered, the whole record is carried over unchanged. -/
theorem C8_first_seen {α : Type} (getId : α → String) (lists : List (List α))
    (k : Nat) :
    ∀ p ∈ reciprocal_rank_fusion getId lists k,
      firstOccur getId (getId p.1) lists = some p.1 := by
  intro p hp
  obtain ⟨k1, k2, k3, k4, k5, k6⟩ := foldFuse_inv getId k lists ⟨[], []⟩ rfl
    (by simp) (by simp)
  rw [reciprocal_rank_fusion_def] at hp
  obtain ⟨a, ha, hfa⟩ := List.mem_filterMap.mp hp
  obtain ⟨res, hres, hpair⟩ := Option.map_eq_some'.mp hfa
  have hkey : getId res = a.1 := k3 (a.1, res) (lookupId_eq_some_mem hres)
  have hinfo : lookupId a.1
      (lists.foldl (fun st rs => fuseList getId k 1 rs st)
        (⟨[], []⟩ : FusionState α)).doc_info = firstOccur getId a.1 lists := by
    have h := k4 a.1
    simpa [lookupId] using h
  rw [← hpair]
  show firstOccur getId (getId res) lists = some res
  rw [hkey, ← hinfo, hres]

/-- **C8 (witness).** In the concrete two-list example, the fused entry for
"B" carries the first-seen record of "B" unchanged. -/
theorem C8_first_seen_witness :
    (("B", (1:Rat)/62 + 1/61) ∈ reciprocal_rank_fusion (fun s : String => s)
      [["A", "B", "C"], ["B", "C", "D"]] 60)
    ∧ firstOccur (fun s : String => s) "B" [["A", "B", "C"], ["B", "C", "D"]] =
        some "B" := by
  have hmem : ("B", (1:Rat)/62 + 1/61) ∈ reciprocal_rank_fusion
      (fun s : String => s) [["A", "B", "C"], ["B", "C", "D"]] 60 := by
    norm_num +decide [reciprocal_rank_fusion, fuseList, rrfVal, bumpScore, lookupId,
      List.insertionSort, List.orderedInsert, List.filterMap_cons]
  exact ⟨hmem, C8_first_seen (fun s : String => s)
    [["A", "B", "C"], ["B", "C", "D"]] 60 _ hmem⟩

/-- **C10.** Every id occurring anywhere in the inputs appears exactly once
in the fused output (ids are duplicate-free and exactly those of the
inputs), and its `rrf_score` is the sum of `1/(k+r)` over all of its
occurrences across all input lists. -/
theorem C10_ids_and_scores {α : Type} (getId : α → String)
    (lists : List (List α)) (k : Nat) :
    ((reciprocal_rank_fusion getId lists k).map (fun p => getId p.1)).Nodup
    ∧ (∀ i, (∃ p ∈ reciprocal_rank_fusion getId lists k, getId p.1 = i) ↔
        ∃ rs ∈ lists, ∃ r ∈ rs, getId r = i)
    ∧ (∀ p ∈ reciprocal_rank_fusion getId lists k,
        p.2 = totalContrib getId k (getId p.1) lists) := by
  obtain ⟨k1, k2, k3, k4, k5, k6⟩ := foldFuse_inv getId k lists ⟨[], []⟩ rfl
    (by simp) (by simp)
  have hperm : List.Perm
      (List.insertionSort (fun a b : String × Rat => b.2 ≤ a.2)
        (lists.foldl (fun st rs => fuseList getId k 1 rs st)
          (⟨[], []⟩ : FusionState α)).doc_scores)
      (lists.foldl (fun st rs => fuseList getId k 1 rs st)
        (⟨[], []⟩ : FusionState α)).doc_scores :=
    List.perm_insertionSort _ _
  have hsome : ∀ a ∈ List.insertionSort (fun a b : String × Rat => b.2 ≤ a.2)
      (lists.foldl (fun st rs => fuseList getId k 1 rs st)
        (⟨[], []⟩ : FusionState α)).doc_scores,
      (lookupId a.1 (lists.foldl (fun st rs => fuseList getId k 1 rs st)
        (⟨[], []⟩ : FusionState α)).doc_info).isSome := by
    intro a ha
    rw [lookupId_isSome_iff, ← k1]
    exact List.mem_map_of_mem Prod.fst (hperm.mem_iff.mp ha)
  have hkeys := filterMap_lookup_keys getId
    (lists.foldl (fun st rs => fuseList getId k 1 rs st)
      (⟨[], []⟩ : FusionState α)).doc_info k3
    (List.insertionSort (fun a b : String × Rat => b.2 ≤ a.2)
      (lists.foldl (fun st rs => fuseList getId k 1 rs st)
        (⟨[], []⟩ : FusionState α)).doc_scores) hsome
  refine ⟨?_, ?_, ?_⟩
  · rw [reciprocal_rank_fusion_def, hkeys]
    exact (List.Perm.nodup_iff (hperm.map Prod.fst)).mpr k2
  · intro i
    constructor
    · rintro ⟨p, hp, hpi⟩
      have hmemkeys : i ∈ (List.insertionSort (fun a b : String × Rat => b.2 ≤ a.2)
          (lists.foldl (fun st rs => fuseList getId k 1 rs st)
            (⟨[], []⟩ : FusionState α)).doc_scores).map Prod.fst := by
        rw [← hkeys]
        rw [reciprocal_rank_fusion_def] at hp
        exact hpi ▸ List.mem_map_of_mem (fun p => getId p.1) hp
      have hsomei : (lookupId i (lists.foldl (fun st rs => fuseList getId k 1 rs st)
          (⟨[], []⟩ : FusionState α)).doc_scores).isSome := by
        rw [lookupId_isSome_iff]
        exact (hperm.map Prod.fst).mem_iff.mp hmemkeys
      have h6 := (k6 i).mp hsomei
      rcases h6 with hbase | hex
      · simp [lookupId] at hbase
      · exact hex
    · intro hex
      have hsomei : (lookupId i (lists.foldl (fun st rs => fuseList getId k 1 rs st)
          (⟨[], []⟩ : FusionState α)).doc_scores).isSome :=
        (k6 i).mpr (Or.inr hex)
      obtain ⟨v, hv⟩ := Option.isSome_iff_exists.mp hsomei
      have hmemS : (i, v) ∈ List.insertionSort (fun a b : String × Rat => b.2 ≤ a.2)
          (lists.foldl (fun st rs => fuseList getId k 1 rs st)
            (⟨[], []⟩ : FusionState α)).doc_scores :=
        hperm.mem_iff.mpr (lookupId_eq_some_mem hv)
      obtain ⟨res, hres⟩ := Option.isSome_iff_exists.mp (hsome (i, v) hmemS)
      refine ⟨(res, v), ?_, k3 (i, res) (lookupId_eq_some_mem hres)⟩
      rw [reciprocal_rank_fusion_def]
      refine List.mem_filterMap.mpr ⟨(i, v), hmemS, ?_⟩
      show (lookupId i (lists.foldl (fun st rs => fuseList getId k 1 rs st)
        (⟨[], []⟩ : FusionState α)).doc_info).map (fun res => (res, v)) = some (res, v)
      rw [hres]
      rfl
  · intro p hp
    rw [reciprocal_rank_fusion_def] at hp
    obtain ⟨a, ha, hfa⟩ := List.mem_filterMap.mp hp
    obtain ⟨res, hres, hpair⟩ := Option.map_eq_some'.mp hfa
    have hkey : getId res = a.1 := k3 (a.1, res) (lookupId_eq_some_mem hres)
    have hmemsc : (a.1, a.2) ∈ (lists.foldl (fun st rs => fuseList getId k 1 rs st)
        (⟨[], []⟩ : FusionState α)).doc_scores := by
      rw [Prod.mk.eta]
      exact hperm.mem_iff.mp ha
    have hlv : lookupId a.1 (lists.foldl (fun st rs => fuseList getId k 1 rs st)
        (⟨[], []⟩ : FusionState α)).doc_scores = some a.2 :=
      lookupId_of_mem_nodup k2 hmemsc
    have h5 := k5 a.1
    rw [hlv] at h5
    simp only [Option.getD_some, lookupId] at h5
    rw [← hpair]
    show a.2 = totalContrib getId k (getId res) lists
    rw [hkey, h5]
    simp [lookupId]

/-- **C10 (witness).** In the concrete two-list example, the fused score of
the id "D" equals its summed per-rank contribution. -/
theorem C10_ids_and_scores_witness :
    (("D", (1:Rat)/63) ∈ reciprocal_rank_fusion (fun s : String => s)
      [["A", "B", "C"], ["B", "C", "D"]] 60)
    ∧ (1:Rat)/63 = totalContrib (fun s : String => s) 60 "D"
        [["A", "B", "C"], ["B", "C", "D"]] := by
  have hmem : ("D", (1:Rat)/63) ∈ reciprocal_rank_fusion
      (fun s : String => s) [["A", "B", "C"], ["B", "C", "D"]] 60 := by
    norm_num +decide [reciprocal_rank_fusion, fuseList, rrfVal, bumpScore, lookupId,
      List.insertionSort, List.orderedInsert, List.filterMap_cons]
  exact ⟨hmem, (C10_ids_and_scores (fun s : String => s)
    [["A", "B", "C"], ["B", "C", "D"]] 60).2.2 ("D", (1:Rat)/63) hmem⟩

/-- Behaviour of every operation over the empty store (as produced by
`__init__` or `reset`): all searches degrade to empty lists and the BM25
index is never built. -/
theorem emptyStore_behavior (dist : String → String → Rat) (q : String)
    (n top_k : Nat) :
    VectorStore.search dist ⟨[], []⟩ q n = []
    ∧ (mkRetriever ⟨[], []⟩).keyword_search q n = []
    ∧ Retriever.retrieve dist (mkRetriever ⟨[], []⟩) q top_k = []
    ∧ (mkRetriever ⟨[], []⟩).bm25 = none := by
  have hmk : mkRetriever ⟨[], []⟩ = ⟨⟨[], []⟩, none, [], []⟩ := rfl
  have hsearch : ∀ m, VectorStore.search dist ⟨[], []⟩ q m = [] := by
    intro m
    simp [VectorStore.search, List.insertionSort]
  have hrrf : reciprocal_rank_fusion SearchResult.id
      ([[], []] : List (List SearchResult)) 60 = [] := rfl
  refine ⟨hsearch n, by rw [hmk]; rfl, ?_, by rw [hmk]⟩
  rw [hmk]
  show (reciprocal_rank_fusion SearchResult.id
    [VectorStore.search dist ⟨[], []⟩ q (top_k * 2), []] 60).take top_k = []
  rw [hsearch (top_k * 2), hrrf, List.take_nil]

/-- **C4 (counterexample).** A corpus of size 1 is NOT short-circuited: the
claim attributes the absence of a size-0/size-1 crash to the index
construction being explicitly short-circuited, but for the one-document
store the guard `if all_docs:` passes and `BM25Okapi` is constructed — the
keyword index comes out non-`None`. -/
theorem C4_size_one_not_short_circuited :
    (mkRetriever storeHello).bm25 ≠ none := by decide

/-- **C4 (amended).** An empty corpus (store empty, or a keyword index built
over an empty store) makes dense search, keyword search and `retrieve` all
return empty lists without raising; a corpus of size 0 never reaches the
BM25 IDF computation because index construction is explicitly
short-circuited.  A corpus of size 1 is NOT short-circuited: when its
summary has tokens the index is built successfully, but a single token-free
summary reaches the IDF computation and crashes (`ZeroDivisionError` from
the average-IDF division by the empty vocabulary). -/
theorem C4_empty_corpus :
    (∀ (dist : String → String → Rat) (vs : VectorStore) (q : String) (n top_k : Nat),
      vs.collection = [] → vs.content_store = [] →
        VectorStore.search dist vs q n = []
        ∧ (mkRetriever vs).keyword_search q n = []
        ∧ Retriever.retrieve dist (mkRetriever vs) q top_k = []
        ∧ (mkRetriever vs).bm25 = none)
    ∧ (∀ (vs : VectorStore) (e : String × StoredRecord), vs.content_store = [e] →
        pyTokenize e.2.summary ≠ [] →
        initRetriever vs =
          Except.ok ⟨vs, some ⟨[pyTokenize e.2.summary]⟩, [e.1], [e.2.summary]⟩)
    ∧ (∀ (vs : VectorStore) (e : String × StoredRecord), vs.content_store = [e] →
        pyTokenize e.2.summary = [] →
        initRetriever vs = Except.error "ZeroDivisionError") := by
  refine ⟨?_, ?_, ?_⟩
  · intro dist vs q n top_k hc hs
    have hvs : vs = ⟨[], []⟩ := by
      cases vs
      simp_all
    subst hvs
    exact emptyStore_behavior dist q n top_k
  · intro vs e hcs htok
    obtain ⟨t, ts, hpt⟩ : ∃ t ts, pyTokenize e.2.summary = t :: ts := by
      cases hpt : pyTokenize e.2.summary with
      | nil => exact absurd hpt htok
      | cons t ts => exact ⟨t, ts, rfl⟩
    rw [initRetriever_eq, hcs]
    simp [BM25Okapi, hpt]
  · intro vs e hcs htok
    rw [initRetriever_eq, hcs]
    simp [BM25Okapi, htok]

/-- **C4 (witness).** Concrete instances: the empty store; the one-document
store with a tokenizable summary, whose index does get built; and the
one-document store with a token-free summary, whose construction crashes. -/
theorem C4_empty_corpus_witness :
    (VectorStore.search dist0 VectorStore.emptyStore "q" 3 = []
    ∧ (mkRetriever VectorStore.emptyStore).keyword_search "q" 3 = []
    ∧ Retriever.retrieve dist0 (mkRetriever VectorStore.emptyStore) "q" 2 = []
    ∧ (mkRetriever VectorStore.emptyStore).bm25 = none)
    ∧ initRetriever storeHello =
        Except.ok ⟨storeHello,
          some ⟨[pyTokenize ("id-hello", mkStoredRecord itemHello).2.summary]⟩,
          [("id-hello", mkStoredRecord itemHello).1],
          [("id-hello", mkStoredRecord itemHello).2.summary]⟩
    ∧ initRetriever storeBlank = Except.error "ZeroDivisionError" :=
  ⟨C4_empty_corpus.1 dist0 VectorStore.emptyStore "q" 3 2 rfl rfl,
    C4_empty_corpus.2.1 storeHello ("id-hello", mkStoredRecord itemHello)
      (by decide) (by decide),
    C4_empty_corpus.2.2 storeBlank ("id-blank", mkStoredRecord itemBlank)
      (by decide) (by decide)⟩

/-- The evaluation shared by the reset/orphan counterexamples: a retriever
whose index was built over the three-document store, after the store was
reset in place, still returns the stale matching document from keyword
search, with all content-store fields `None` since the id no longer
resolves.  The input is chosen so the model is sign-faithful to the real
library: "alpha" occurs in 1 of 3 documents, so its real IDF is
`log(2.5/1.5) > 0` (no epsilon flooring) and the real score is positive,
passing the `scores[idx] > 0` filter exactly as the surrogate score `2/3`
does here. -/
theorem staleRetriever_keyword_eval :
    staleRetriever.keyword_search "alpha" 10 =
      [⟨"id-a3", "alpha", none, none, none, ResultMeta.item [], none,
        some (2/3)⟩] := by
  norm_num +decide [Retriever.keyword_search, staleRetriever, mkRetriever,
    initRetriever, buildKeywordIndexOn, BM25Okapi, storeThree,
    VectorStore.emptyStore, VectorStore.add_documents, VectorStore.addOne,
    storePut, VectorStore.reset, VectorStore.get_all_documents,
    VectorStore.get_original_content, lookupId, pyTokenize, pyTokenizeAux,
    itemAlpha, itemBeta, itemGamma, BM25.get_scores, BM25.scoreDoc, BM25.idf,
    BM25.rawIdf, BM25.docFreq, BM25.avgdl, mkStoredRecord, List.insertionSort,
    List.orderedInsert, List.filterMap_cons, List.count_cons, List.count_nil]

/-- **C7 (counterexample).** After `reset()`, a retriever built BEFORE the
reset and backed by that store (Python aliasing: its `vector_store` is the
reset store) returns a non-empty `retrieve` result from its stale keyword
index — the claim's "a retriever backed by that store returns an empty
list" fails for it. -/
theorem C7_stale_retriever_cex :
    storeThree.reset.get_all_documents = []
    ∧ staleRetriever.vector_store = storeThree.reset
    ∧ Retriever.retrieve dist0 staleRetriever "alpha" 5 ≠ [] := by
  refine ⟨rfl, rfl, ?_⟩
  have hdense : staleRetriever.dense_search dist0 "alpha" (5 * 2) = [] := rfl
  show (reciprocal_rank_fusion SearchResult.id
    [staleRetriever.dense_search dist0 "alpha" (5 * 2),
      staleRetriever.keyword_search "alpha" (5 * 2)] 60).take 5 ≠ []
  rw [hdense, show (5 * 2 : Nat) = 10 from rfl, staleRetriever_keyword_eval]
  norm_num +decide [reciprocal_rank_fusion, fuseList, rrfVal, bumpScore, lookupId,
    List.insertionSort, List.orderedInsert, List.filterMap_cons]

/-- **C7 (amended).** After `reset()` the store is empty (`get_all_documents`
returns `[]`), and a retriever newly CONSTRUCTED over that store returns an
empty list from `retrieve` (the constructor initialises `bm25 = None` and
the empty-store build is a no-op).  A retriever that existed before the
reset keeps its stale keyword index, and `rebuild_index` does not clear it:
`_build_keyword_index` is a no-op on the emptied store, so every retriever
backed by the reset store is left unchanged by a rebuild. -/
theorem C7_reset_then_fresh_retriever (vs : VectorStore)
    (dist : String → String → Rat) (q : String) (top_k : Nat) :
    (vs.reset).get_all_documents = []
    ∧ Retriever.retrieve dist (mkRetriever vs.reset) q top_k = []
    ∧ (∀ r : Retriever, r.vector_store = vs.reset → r.rebuild_index = r) := by
  refine ⟨rfl, (emptyStore_behavior dist q 0 top_k).2.2.1, ?_⟩
  intro r hr
  unfold Retriever.rebuild_index buildKeywordIndexOn
  rw [hr]
  rfl

/-- **C7 (witness).** Concrete instance: the reset three-document store, a
freshly constructed retriever over it, and the pre-existing stale retriever
that a rebuild leaves unchanged. -/
theorem C7_reset_then_fresh_retriever_witness :
    storeThree.reset.get_all_documents = []
    ∧ Retriever.retrieve dist0 (mkRetriever storeThree.reset) "alpha" 5 = []
    ∧ staleRetriever.rebuild_index = staleRetriever :=
  ⟨(C7_reset_then_fresh_retriever storeThree dist0 "alpha" 5).1,
    (C7_reset_then_fresh_retriever storeThree dist0 "alpha" 5).2.1,
    (C7_reset_then_fresh_retriever storeThree dist0 "alpha" 5).2.2
      staleRetriever rfl⟩

/-- `keyword_search` over an unbuilt index. -/
theorem keyword_search_of_bm25_none (r : Retriever) (hb : r.bm25 = none)
    (q : String) (k : Nat) : r.keyword_search q k = [] := by
  unfold Retriever.keyword_search
  rw [hb]

/-- **C9 (counterexample).** An orphaned id (present in the keyword index,
absent from the content store) is NOT dropped: keyword search over the
stale retriever returns the entry whose id does not resolve in the store,
with `None` content fields; nothing is logged and the entry stays in the
results. -/
theorem C9_orphan_not_dropped_cex :
    staleRetriever.keyword_search "alpha" 10 =
      [⟨"id-a3", "alpha", none, none, none, ResultMeta.item [], none,
        some (2/3)⟩]
    ∧ staleRetriever.vector_store.get_original_content "id-a3" = none :=
  ⟨staleRetriever_keyword_eval, rfl⟩

/-- **C9 (amended).** When a candidate id cannot be resolved in the content
store, the query does not fail and the orphaned entry is NOT dropped: it is
returned with `None` original content, page and type and empty metadata
(keyword path), respectively `None` original content (dense path); no
logging occurs. -/
theorem C9_orphans_kept (r : Retriever) (dist : String → String → Rat)
    (q : String) (k : Nat) :
    (∀ res ∈ r.keyword_search q k,
      r.vector_store.get_original_content res.id = none →
        res.original_content = none ∧ res.page = none ∧ res.rtype = none
          ∧ res.metadata = ResultMeta.item [])
    ∧ (∀ res ∈ r.vector_store.search dist q k,
      r.vector_store.get_original_content res.id = none →
        res.original_content = none) := by
  constructor
  · intro res hres hnone
    cases hbm : r.bm25 with
    | none =>
      rw [keyword_search_of_bm25_none r hbm] at hres
      simp at hres
    | some b =>
      rw [keyword_search_eq r b hbm] at hres
      obtain ⟨idx, hidx, hfa⟩ := List.mem_filterMap.mp hres
      by_cases hi : 0 < (b.get_scores (pyTokenize q)).getD idx 0
      · rw [if_pos hi] at hfa
        cases hfa
        dsimp only at hnone ⊢
        rw [hnone]
        exact ⟨rfl, rfl, rfl, rfl⟩
      · rw [if_neg hi] at hfa
        cases hfa
  · intro res hres hnone
    unfold VectorStore.search at hres
    obtain ⟨e, he, heq⟩ := List.mem_map.mp hres
    rw [← heq]
    rw [← heq] at hnone
    dsimp only at hnone ⊢
    unfold VectorStore.get_original_content at hnone
    rw [hnone]
    rfl

/-- **C9 (witness).** Concrete instance over the stale retriever: the
orphaned entry is in the results and carries `None` fields. -/
theorem C9_orphans_kept_witness :
    ((⟨"id-a3", "alpha", none, none, none, ResultMeta.item [], none,
        some ((2:Rat)/3)⟩ : SearchResult) ∈ staleRetriever.keyword_search "alpha" 10)
    ∧ staleRetriever.vector_store.get_original_content "id-a3" = none
    ∧ ((⟨"id-a3", "alpha", none, none, none, ResultMeta.item [], none,
        some ((2:Rat)/3)⟩ : SearchResult).original_content = none
      ∧ (⟨"id-a3", "alpha", none, none, none, ResultMeta.item [], none,
        some ((2:Rat)/3)⟩ : SearchResult).page = none
      ∧ (⟨"id-a3", "alpha", none, none, none, ResultMeta.item [], none,
        some ((2:Rat)/3)⟩ : SearchResult).rtype = none
      ∧ (⟨"id-a3", "alpha", none, none, none, ResultMeta.item [], none,
        some ((2:Rat)/3)⟩ : SearchResult).metadata = ResultMeta.item []) := by
  have hmem : (⟨"id-a3", "alpha", none, none, none, ResultMeta.item [],
      none, some ((2:Rat)/3)⟩ : SearchResult) ∈
      staleRetriever.keyword_search "alpha" 10 := by
    rw [staleRetriever_keyword_eval]
    exact List.mem_singleton.mpr rfl
  exact ⟨hmem, rfl,
    (C9_orphans_kept staleRetriever dist0 "alpha" 10).1 _ hmem rfl⟩

end MRag
